import Mathlib

deriving instance DecidableEq for Except

/-!
Shallow embedding of the transport layer of `magichue/light.py`
(python-magichue).  The socket is modelled as an explicit state carrying
the receive-side events that the network will deliver, plus a log of the
raw socket operations actually performed, so that ordering properties
(flush before write, no read on fire-and-forget sends) are stated about
the log.  Python exceptions are modelled with `Except`.
-/

/-- Exceptions that the transport code can raise.  The repository's
`exceptions` module is not in the source tree; the constructors follow the
spec's error taxonomy (`DeviceDisconnected`, `DeviceOffline`,
`InvalidData` i.e. MalformedResponse) together with the Python built-in
errors that `light.py` can let propagate (`socket.timeout`,
`ConnectionResetError`, `ValueError`, `IndexError`). -/
inductive Exc where
  | DeviceDisconnected
  | DeviceOffline
  | InvalidData (expected got : Nat)
  | SocketTimeout
  | ConnectionReset
  | ValueError
  | IndexError
deriving DecidableEq, Repr

/-- One receive-side network event: a chunk of bytes delivered by the
peer (the empty chunk stands for an orderly EOF, on which `recv` returns
`b''`), or a connection reset (on which `recv` raises
`ConnectionResetError`). -/
inductive RecvEvent where
  | chunk (bytes : List Nat)
  | reset
deriving DecidableEq, Repr

/-- A raw socket operation, recorded in the order performed. -/
inductive Op where
  | sendOp (bytes : List Nat)
  | recvOp (requested : Nat) (got : List Nat)
  | pollOp (readable : Bool)
deriving DecidableEq, Repr

/-- State of the TCP socket owned by a `LocalLight`.  `buffered` holds the
receive events already available (stale pushes from the device);
`arriving` holds the events the device will deliver in response to the
next write (they move to `buffered` when a send completes).  `sendFault`
injects a socket-level failure of `send`.  `log` records the raw socket
operations performed so far. -/
structure SockState where
  closed : Bool
  sendFault : Option Exc
  buffered : List RecvEvent
  arriving : List RecvEvent
  log : List Op
deriving DecidableEq, Repr

/-- Raw `socket.send`: fails with the injected socket-level fault if any;
otherwise the write completes and the device's response events become
available for reading. -/
def sockSend (bytes : List Nat) (s : SockState) : Except Exc SockState :=
  match s.sendFault with
  | some e => .error e
  | none =>
      .ok { s with
              buffered := s.buffered ++ s.arriving
              arriving := []
              log := s.log ++ [.sendOp bytes] }

/-- Raw `socket.recv(len)` under a read timeout: nothing buffered means
the timeout expires (`socket.timeout`); a reset raises
`ConnectionResetError`; otherwise up to `len` bytes of the first buffered
chunk are returned (so a short read happens exactly when the chunk is
shorter than `len`). -/
def sockRecv (len : Nat) (s : SockState) : Except Exc (List Nat × SockState) :=
  match s.buffered with
  | [] => .error .SocketTimeout
  | .reset :: _ => .error .ConnectionReset
  | .chunk bytes :: rest =>
      let got := bytes.take len
      let leftover := bytes.drop len
      let buffered' := if leftover.isEmpty then rest else RecvEvent.chunk leftover :: rest
      .ok (got, { s with buffered := buffered', log := s.log ++ [.recvOp len got] })

/-- Modelled from the spec: the `commands` module is not in the source
tree.  A command is a value object holding the encoded byte sequence it
puts on the wire (`byte_string`, opcode + payload + checksum byte) and
the exact reply length the caller must expect (`response_len`, 0 for
fire-and-forget commands). -/
structure Command where
  byte_string : List Nat
  response_len : Nat
deriving DecidableEq, Repr

/-- Modelled from the spec: `TurnON` is a fire-and-forget command
(declared reply length 0); its bytes are opcode, payload and a trailing
checksum byte. -/
def TurnON : Command := ⟨[0x71, 0x23, 0x0f, 0xa3], 0⟩

/-- Modelled from the spec: `TurnOFF` is a fire-and-forget command
(declared reply length 0). -/
def TurnOFF : Command := ⟨[0x71, 0x24, 0x0f, 0xa4], 0⟩

/-- Modelled from the spec: the clock query declares a constant positive
reply length (12 bytes here), covering the six decoded offsets 3..8. -/
def QueryCurrentTime : Command := ⟨[0x11, 0x1a, 0x1b, 0x0f, 0x55], 12⟩

namespace LocalLight

/-- Embeds `LocalLight._send` (light.py 157-163): raise
`DeviceDisconnected` if the socket is closed, else perform the raw send. -/
def _send (data : List Nat) (s : SockState) : Except Exc SockState :=
  if s.closed then .error .DeviceDisconnected
  else sockSend data s

/-- Embeds `LocalLight._receive` (light.py 165-177): raise
`DeviceDisconnected` if the socket is closed, else perform the raw recv. -/
def _receive (length : Nat) (s : SockState) : Except Exc (List Nat × SockState) :=
  if s.closed then .error .DeviceDisconnected
  else sockRecv length s

/-- Size measure of one receive event, for termination of the flush loop. -/
def chunkSize : RecvEvent → Nat
  | .chunk bytes => bytes.length + 1
  | .reset => 1

/-- The `while True` loop of `LocalLight._flush_receive_buffer`
(light.py 183-191): `select` polls the buffered events; while something is
readable, `_receive(255)` drains it (raising `ConnectionResetError` on a
reset and `DeviceDisconnected` on an empty read, i.e. EOF); when the poll
finds nothing within the timeout the loop breaks.  The socket is known
open here (the caller checked `_closed`), so the loop leaves `closed`
false. -/
def flushGo (sf : Option Exc) (buffered arriving : List RecvEvent) (log : List Op) :
    Except Exc SockState :=
  match buffered with
  | [] => .ok ⟨false, sf, [], arriving, log ++ [.pollOp false]⟩
  | .reset :: _ => .error .ConnectionReset
  | .chunk bytes :: rest =>
      if bytes.isEmpty then .error .DeviceDisconnected
      else
        let leftover := bytes.drop 255
        let buffered' := if leftover.isEmpty then rest else RecvEvent.chunk leftover :: rest
        flushGo sf buffered' arriving (log ++ [.pollOp true, .recvOp 255 (bytes.take 255)])
termination_by (buffered.map chunkSize).sum
decreasing_by
  by_cases hl : (bytes.drop 255).isEmpty
  · simp [hl, chunkSize]
  · have hpos : bytes.drop 255 ≠ [] := by simpa [List.isEmpty_iff] using hl
    have hlen : 0 < (bytes.drop 255).length := List.length_pos.mpr hpos
    simp only [List.length_drop] at hlen
    simp [hl, chunkSize, List.length_drop]
    omega

/-- Embeds `LocalLight._flush_receive_buffer` (light.py 179-191). -/
def flush_receive_buffer (s : SockState) : Except Exc SockState :=
  if s.closed then .error .DeviceDisconnected
  else flushGo s.sendFault s.buffered s.arriving s.log

/-- Embeds the `send_only=False` branch of `LocalLight._send_command`
(light.py 201-218): flush the receive buffer, write the command bytes,
read `cmd.response_len` bytes, decode them with `struct.unpack`
(the identity on a list of byte values), and return the decoded tuple if
the received count matches the declared length, else raise
`InvalidData`. -/
def send_command_query (cmd : Command) (s : SockState) :
    Except Exc (List Nat × SockState) :=
  match flush_receive_buffer s with
  | .error e => .error e
  | .ok s1 =>
      match _send cmd.byte_string s1 with
      | .error e => .error e
      | .ok s2 =>
          match _receive cmd.response_len s2 with
          | .error e => .error e
          | .ok (data, s3) =>
              let decoded_data := data
              if data.length = cmd.response_len then .ok (decoded_data, s3)
              else .error (.InvalidData cmd.response_len decoded_data.length)

/-- Embeds `LocalLight._send_command` (light.py 193-218): with
`send_only=True` just write the encoded bytes (returning Python's
implicit `None`); with `send_only=False` run the query path. -/
def _send_command (cmd : Command) (send_only : Bool) (s : SockState) :
    Except Exc (Option (List Nat) × SockState) :=
  if send_only then
    match _send cmd.byte_string s with
    | .error e => .error e
    | .ok s1 => .ok (none, s1)
  else
    match send_command_query cmd s with
    | .error e => .error e
    | .ok (data, s1) => .ok (some data, s1)

end LocalLight

/-- Result of Python's `datetime(...)` constructor. -/
structure PyDateTime where
  year : Nat
  month : Nat
  day : Nat
  hour : Nat
  minute : Nat
  second : Nat
deriving DecidableEq, Repr

/-- Gregorian leap-year rule used by Python's `datetime`. -/
def isLeapYear (y : Nat) : Bool :=
  y % 4 == 0 && (y % 100 != 0 || y % 400 == 0)

/-- Number of days in a month of the proleptic Gregorian calendar. -/
def daysInMonth (y m : Nat) : Nat :=
  if m = 2 then (if isLeapYear y then 29 else 28)
  else if m = 4 ∨ m = 6 ∨ m = 9 ∨ m = 11 then 30
  else 31

/-- Python's `datetime(year, month, day, hour, minute, second)`: returns
the value, or raises `ValueError` when a field is out of range. -/
def mkDatetime (y mo d h mi s : Nat) : Except Exc PyDateTime :=
  if 1 ≤ y ∧ y ≤ 9999 ∧ 1 ≤ mo ∧ mo ≤ 12 ∧ 1 ≤ d ∧ d ≤ daysInMonth y mo
      ∧ h ≤ 23 ∧ mi ≤ 59 ∧ s ≤ 59
  then .ok ⟨y, mo, d, h, mi, s⟩
  else .error .ValueError

/-- Python tuple indexing `l[i]`: the element, or `IndexError` when out of
range. -/
def pyIndex (l : List Nat) (i : Nat) : Except Exc Nat :=
  match l.get? i with
  | some v => .ok v
  | none => .error .IndexError

/-- Bulb hardware variants, as in the repository's `bulb_types` module
(seen in light.py 41-61): RGB + warm white, RGB + warm + cool white, and
RGB-only tape. -/
inductive BulbType where
  | BULB_RGBWW
  | BULB_RGBWWCW
  | BULB_TAPE
deriving DecidableEq, Repr

/-- Modelled from the spec: the mode enum of the missing `modes` module —
normal color mode versus a device-internal animation/preset mode. -/
inductive LightMode where
  | normal
  | animation
deriving DecidableEq, Repr

/-- Modelled from the spec: the `Status` aggregate of the missing
`magichue` module — power flag, mode, color channels, warm white `w`,
cool white `cw` (the white channels are `Option`s because they are absent
on variants that do not support them), and the bulb variant.  Field names
`w`, `cw`, `bulb_type` follow their uses in light.py 36-61; Python's
field `on` is `is_on` here because `on` is a Lean keyword. -/
structure Status where
  is_on : Bool
  mode : LightMode
  red : Fin 256
  green : Fin 256
  blue : Fin 256
  w : Option (Fin 256)
  cw : Option (Fin 256)
  bulb_type : BulbType
deriving DecidableEq, Repr

namespace Status

/-- Well-formedness from the spec: which white channels are present is
determined by the bulb variant (tape exposes none, RGBWW only `w`,
RGBWWCW both). -/
def wf (s : Status) : Prop :=
  match s.bulb_type with
  | .BULB_RGBWW => s.w.isSome ∧ s.cw = none
  | .BULB_RGBWWCW => s.w.isSome ∧ s.cw.isSome
  | .BULB_TAPE => s.w = none ∧ s.cw = none

/-- Byte encoding of the power flag in a status frame. -/
def onByte (b : Bool) : Nat := if b then 0x23 else 0x24

/-- Byte encoding of the mode in a status frame. -/
def modeByte : LightMode → Nat
  | .normal => 0x61
  | .animation => 0x25

/-- Byte encoding of the bulb variant in a status frame. -/
def typeByte : BulbType → Nat
  | .BULB_RGBWW => 0x44
  | .BULB_RGBWWCW => 0x45
  | .BULB_TAPE => 0x33

/-- Modelled from the spec: `Status.make_data` (serialize) of the missing
`magichue` module — a fixed 10-byte frame: marker, power byte, mode byte,
variant byte, red, green, blue, warm white, cool white (absent channels
serialize as don't-care 0), and a trailing checksum byte. -/
def make_data (s : Status) : List Nat :=
  let body := [0x81, onByte s.is_on, modeByte s.mode, typeByte s.bulb_type,
               s.red.val, s.green.val, s.blue.val,
               (s.w.map Fin.val).getD 0, (s.cw.map Fin.val).getD 0]
  body ++ [body.sum % 256]

/-- Reads one channel byte, checking it is an actual byte value. -/
def toByte (n : Nat) : Except Exc (Fin 256) :=
  if h : n < 256 then .ok ⟨n, h⟩ else .error (.InvalidData 256 n)

/-- Modelled from the spec: `Status.parse` of the missing `magichue`
module — pure and total over the declared 10-byte status frame, failing
with MalformedResponse (`InvalidData`) on a length mismatch or on a byte
that fails structural decoding; white channels are populated only for the
variants that have them. -/
def parse (raw : List Nat) : Except Exc Status :=
  match raw with
  | [_, b1, b2, b3, b4, b5, b6, b7, b8, _] => do
      let pw ←
        if b1 = 0x23 then Except.ok true
        else if b1 = 0x24 then Except.ok false
        else Except.error (Exc.InvalidData 0x23 b1)
      let mode ←
        if b2 = 0x61 then Except.ok LightMode.normal
        else if b2 = 0x25 then Except.ok LightMode.animation
        else Except.error (Exc.InvalidData 0x61 b2)
      let bt ←
        if b3 = 0x44 then Except.ok BulbType.BULB_RGBWW
        else if b3 = 0x45 then Except.ok BulbType.BULB_RGBWWCW
        else if b3 = 0x33 then Except.ok BulbType.BULB_TAPE
        else Except.error (Exc.InvalidData 0x44 b3)
      let red ← toByte b4
      let green ← toByte b5
      let blue ← toByte b6
      let wv ← toByte b7
      let cwv ← toByte b8
      let w : Option (Fin 256) :=
        match bt with
        | .BULB_TAPE => none
        | _ => some wv
      let cw : Option (Fin 256) :=
        match bt with
        | .BULB_RGBWWCW => some cwv
        | _ => none
      Except.ok (⟨pw, mode, red, green, blue, w, cw, bt⟩ : Status)
  | _ => .error (.InvalidData 10 raw.length)

end Status

/-- State of one `LocalLight` controller: its socket and the cached
`Status` aggregate (light.py 145-148). -/
structure LocalLightState where
  sock : SockState
  status : Status
deriving DecidableEq, Repr

namespace LocalLight

/-- Embeds `AbstractLight.turn_on` (light.py 85-87) over the direct
transport: send the fire-and-forget `TurnON` command, then set the cached
status's `on` flag; a raised exception propagates and leaves the state
untouched. -/
def turn_on (st : LocalLightState) : Except Exc Unit × LocalLightState :=
  match _send_command TurnON true st.sock with
  | .error e => (.error e, st)
  | .ok (_, sock1) =>
      (.ok (), { sock := sock1, status := { st.status with is_on := true } })

/-- Embeds `AbstractLight.turn_off` (light.py 89-91) over the direct
transport. -/
def turn_off (st : LocalLightState) : Except Exc Unit × LocalLightState :=
  match _send_command TurnOFF true st.sock with
  | .error e => (.error e, st)
  | .ok (_, sock1) =>
      (.ok (), { sock := sock1, status := { st.status with is_on := false } })

/-- Embeds `AbstractLight.get_current_time` (light.py 71-83) over the
direct transport: query the clock, then build
`datetime(data[3] + 2000, data[4], data[5], data[6], data[7], data[8])`;
a raised exception propagates and leaves the state untouched. -/
def get_current_time (st : LocalLightState) :
    Except Exc PyDateTime × LocalLightState :=
  match send_command_query QueryCurrentTime st.sock with
  | .error e => (.error e, st)
  | .ok (data, sock1) =>
      match pyIndex data 3 with
      | .error e => (.error e, st)
      | .ok b3 =>
          match pyIndex data 4 with
          | .error e => (.error e, st)
          | .ok b4 =>
              match pyIndex data 5 with
              | .error e => (.error e, st)
              | .ok b5 =>
                  match pyIndex data 6 with
                  | .error e => (.error e, st)
                  | .ok b6 =>
                      match pyIndex data 7 with
                      | .error e => (.error e, st)
                      | .ok b7 =>
                          match pyIndex data 8 with
                          | .error e => (.error e, st)
                          | .ok b8 =>
                              match mkDatetime (b3 + 2000) b4 b5 b6 b7 b8 with
                              | .error e => (.error e, st)
                              | .ok dt => (.ok dt, { st with sock := sock1 })

end LocalLight

/-- Value of one hexadecimal digit character (ASCII `0`-`9`, `a`-`f`,
`A`-`F`), as interpreted by Python's `int(-, 16)`. -/
def hexDigitVal (c : Char) : Option Nat :=
  let n := c.toNat
  if 48 ≤ n ∧ n ≤ 57 then some (n - 48)
  else if 97 ≤ n ∧ n ≤ 102 then some (n - 97 + 10)
  else if 65 ≤ n ∧ n ≤ 70 then some (n - 65 + 10)
  else none

/-- Values of a string of hex digit characters, or `none` if some
character is not a hex digit. -/
def hexVals : List Char → Option (List Nat)
  | [] => some []
  | c :: cs =>
      match hexDigitVal c, hexVals cs with
      | some d, some ds => some (d :: ds)
      | _, _ => none

/-- Python's `int(s, 16)` on the chunks reachable from `str2hexarray`
(one or two characters): the base-16 value when every character is a hex
digit and the chunk is non-empty, otherwise `ValueError`.  Other forms
`int` accepts (signs, `0x` prefix, surrounding whitespace) cannot reach a
value here and are not modelled. -/
def pyIntHex (s : List Char) : Except Exc Nat :=
  match hexVals s with
  | some ds => if ds.isEmpty then .error .ValueError
               else .ok (ds.foldl (fun a d => 16 * a + d) 0)
  | none => .error .ValueError

namespace RemoteLight

/-- Embeds `RemoteLight.str2hexarray` (light.py 132-135): split the string
into two-character chunks (a trailing odd character forms a chunk of one)
and interpret each chunk base 16. -/
def str2hexarray : List Char → Except Exc (List Nat)
  | [] => .ok []
  | [c] =>
      match pyIntHex [c] with
      | .error e => .error e
      | .ok v => .ok [v]
  | c0 :: c1 :: rest =>
      match pyIntHex [c0, c1] with
      | .error e => .error e
      | .ok v =>
          match str2hexarray rest with
          | .error e => .error e
          | .ok tl => .ok (v :: tl)

/-- Embeds the `send_only=False` branch of `RemoteLight._send_command`
(light.py 119-127): decode the hex-encoded reply string returned by the
relay (`self._send_request(cmd)`, an opaque collaborator whose reply is
the `reply` argument here), then raise `InvalidData` when the decoded
length differs from the declared `response_len`, else return the decoded
tuple. -/
def _send_command_query (cmd : Command) (reply : List Char) :
    Except Exc (List Nat) :=
  match str2hexarray reply with
  | .error e => .error e
  | .ok data =>
      if data.length ≠ cmd.response_len
      then .error (.InvalidData cmd.response_len data.length)
      else .ok data

end RemoteLight

/-! ### Characterization lemmas for the socket primitives -/

namespace LocalLight

theorem _send_eq_ok {data : List Nat} {s s1 : SockState}
    (h : _send data s = .ok s1) :
    s.closed = false ∧ s.sendFault = none ∧ s1.closed = false ∧
      s1.sendFault = none ∧ s1.buffered = s.buffered ++ s.arriving ∧
      s1.arriving = [] ∧ s1.log = s.log ++ [.sendOp data] := by
  unfold _send sockSend at h
  by_cases hc : s.closed
  · simp [hc] at h
  · have hc' : s.closed = false := by simpa using hc
    rcases hf : s.sendFault with _ | e <;> rw [hf] at h
    · simp [hc'] at h
      rw [← h]
      simp [hc', hf]
    · simp [hc'] at h

theorem _receive_eq_ok {n : Nat} {s : SockState} {data : List Nat} {s1 : SockState}
    (h : _receive n s = .ok (data, s1)) :
    s.closed = false ∧ data.length ≤ n ∧
      (∃ bytes rest, s.buffered = RecvEvent.chunk bytes :: rest ∧
        data = bytes.take n) ∧
      s1.closed = false ∧ s1.sendFault = s.sendFault ∧
      s1.arriving = s.arriving ∧ s1.log = s.log ++ [.recvOp n data] := by
  unfold _receive sockRecv at h
  by_cases hc : s.closed
  · simp [hc] at h
  · have hc' : s.closed = false := by simpa using hc
    rcases hb : s.buffered with _ | ⟨ev, rest⟩ <;> rw [hb] at h
    · simp [hc'] at h
    rcases ev with bytes | _
    · simp [hc'] at h
      obtain ⟨hdata, hs1⟩ := h
      refine ⟨hc', ?_, ⟨bytes, rest, rfl, hdata.symm⟩, ?_⟩
      · rw [← hdata]
        exact List.length_take_le n bytes
      · rw [← hs1, ← hdata]
        simp [hc']
    · simp [hc'] at h

theorem flushGo_nil (sf : Option Exc) (arriving : List RecvEvent) (log : List Op) :
    flushGo sf [] arriving log = .ok ⟨false, sf, [], arriving, log ++ [.pollOp false]⟩ := by
  rw [flushGo]

theorem flushGo_reset (sf : Option Exc) (rest arriving : List RecvEvent) (log : List Op) :
    flushGo sf (RecvEvent.reset :: rest) arriving log = .error .ConnectionReset := by
  rw [flushGo]

theorem flushGo_chunk_empty (sf : Option Exc) (rest arriving : List RecvEvent) (log : List Op) :
    flushGo sf (RecvEvent.chunk [] :: rest) arriving log = .error .DeviceDisconnected := by
  rw [flushGo]
  simp

theorem flushGo_chunk (sf : Option Exc) (bytes : List Nat)
    (rest arriving : List RecvEvent) (log : List Op) (h : bytes.isEmpty = false) :
    flushGo sf (RecvEvent.chunk bytes :: rest) arriving log =
      flushGo sf
        (if (bytes.drop 255).isEmpty then rest
         else RecvEvent.chunk (bytes.drop 255) :: rest)
        arriving (log ++ [.pollOp true, .recvOp 255 (bytes.take 255)]) := by
  conv_lhs => rw [flushGo]
  simp [h]

theorem flushGo_eq_ok {sf : Option Exc} {buffered arriving : List RecvEvent}
    {log : List Op} {s1 : SockState}
    (h : flushGo sf buffered arriving log = .ok s1) :
    s1.closed = false ∧ s1.sendFault = sf ∧ s1.buffered = [] ∧
      s1.arriving = arriving ∧
      ∃ fl, (∀ b, Op.sendOp b ∉ fl) ∧ s1.log = log ++ fl := by
  have main : ∀ (n : Nat) (buffered : List RecvEvent) (sf : Option Exc)
      (arriving : List RecvEvent) (log : List Op) (s1 : SockState),
      (buffered.map chunkSize).sum ≤ n →
      flushGo sf buffered arriving log = .ok s1 →
      s1.closed = false ∧ s1.sendFault = sf ∧ s1.buffered = [] ∧
        s1.arriving = arriving ∧
        ∃ fl, (∀ b, Op.sendOp b ∉ fl) ∧ s1.log = log ++ fl := by
    intro n
    induction n with
    | zero =>
        intro buffered sf arriving log s1 hn h
        match buffered with
        | [] =>
            rw [flushGo_nil] at h
            obtain rfl := (Except.ok.injEq _ _).mp h
            exact ⟨rfl, rfl, rfl, rfl, [Op.pollOp false], by simp, rfl⟩
        | ev :: rest =>
            exfalso
            have : 1 ≤ chunkSize ev := by cases ev <;> simp [chunkSize]
            simp [List.map_cons, List.sum_cons] at hn
            omega
    | succ n ih =>
        intro buffered sf arriving log s1 hn h
        match buffered with
        | [] =>
            rw [flushGo_nil] at h
            obtain rfl := (Except.ok.injEq _ _).mp h
            exact ⟨rfl, rfl, rfl, rfl, [Op.pollOp false], by simp, rfl⟩
        | RecvEvent.reset :: rest =>
            rw [flushGo_reset] at h
            simp at h
        | RecvEvent.chunk bytes :: rest =>
            by_cases hb : bytes.isEmpty
            · have hbe : bytes = [] := by simpa [List.isEmpty_iff] using hb
              subst hbe
              rw [flushGo_chunk_empty] at h
              simp at h
            · have hb' : bytes.isEmpty = false := by simpa using hb
              rw [flushGo_chunk sf bytes rest arriving log hb'] at h
              have hsz : ((if (bytes.drop 255).isEmpty then rest
                  else RecvEvent.chunk (bytes.drop 255) :: rest).map chunkSize).sum ≤ n := by
                have hlen : 0 < bytes.length := by
                  have : bytes ≠ [] := by simpa [List.isEmpty_iff] using hb
                  exact List.length_pos.mpr this
                by_cases hd : (bytes.drop 255).isEmpty
                · simp only [hd, if_true]
                  simp [List.map_cons, List.sum_cons, chunkSize] at hn
                  omega
                · have hdl : 0 < (bytes.drop 255).length := by
                    have : bytes.drop 255 ≠ [] := by simpa [List.isEmpty_iff] using hd
                    exact List.length_pos.mpr this
                  simp only [List.length_drop] at hdl
                  simp only [hd, if_false]
                  simp [List.map_cons, List.sum_cons, chunkSize, List.length_drop] at hn ⊢
                  omega
              obtain ⟨h1, h2, h3, h4, fl, hfl, hlog⟩ := ih _ sf arriving _ s1 hsz h
              refine ⟨h1, h2, h3, h4,
                [Op.pollOp true, Op.recvOp 255 (bytes.take 255)] ++ fl, ?_, ?_⟩
              · intro b
                simp only [List.mem_append, List.mem_cons, List.not_mem_nil]
                push_neg
                exact ⟨⟨by simp, by simp, fun hx => hx.elim⟩, hfl b⟩
              · rw [hlog]
                simp [List.append_assoc]
  exact main _ buffered sf arriving log s1 le_rfl h

theorem flush_receive_buffer_eq_ok {s s1 : SockState}
    (h : flush_receive_buffer s = .ok s1) :
    s.closed = false ∧ s1.closed = false ∧ s1.sendFault = s.sendFault ∧
      s1.buffered = [] ∧ s1.arriving = s.arriving ∧
      ∃ fl, (∀ b, Op.sendOp b ∉ fl) ∧ s1.log = s.log ++ fl := by
  unfold flush_receive_buffer at h
  by_cases hc : s.closed
  · simp [hc] at h
  · obtain ⟨h1, h2, h3, h4, fl, hfl, hlog⟩ := flushGo_eq_ok ((if_neg hc) ▸ h)
    exact ⟨by simpa using hc, h1, h2, h3, h4, fl, hfl, hlog⟩

theorem send_command_query_eq_ok {cmd : Command} {s : SockState}
    {data : List Nat} {s3 : SockState}
    (h : send_command_query cmd s = .ok (data, s3)) :
    data.length = cmd.response_len ∧
      ∃ fl, (∀ b, Op.sendOp b ∉ fl) ∧
        s3.log = s.log ++ fl ++
          [.sendOp cmd.byte_string, .recvOp cmd.response_len data] := by
  unfold send_command_query at h
  rcases h1 : flush_receive_buffer s with e | s1 <;> rw [h1] at h <;>
    dsimp only at h
  · simp at h
  rcases h2 : _send cmd.byte_string s1 with e | s2 <;> rw [h2] at h <;>
    dsimp only at h
  · simp at h
  rcases h3 : _receive cmd.response_len s2 with e | ⟨data0, s3'⟩ <;>
    rw [h3] at h <;> dsimp only at h
  · simp at h
  by_cases hlen : data0.length = cmd.response_len
  · simp only [hlen, if_true, Except.ok.injEq, Prod.mk.injEq] at h
    obtain ⟨rfl, rfl⟩ := h
    obtain ⟨-, -, -, -, -, fl, hfl, hlog1⟩ := flush_receive_buffer_eq_ok h1
    obtain ⟨-, -, -, -, -, -, hlog2⟩ := _send_eq_ok h2
    obtain ⟨-, -, -, -, -, -, hlog3⟩ := _receive_eq_ok h3
    refine ⟨hlen, fl, hfl, ?_⟩
    rw [hlog3, hlog2, hlog1]
    simp [List.append_assoc]
  · simp [hlen] at h

end LocalLight

/-! ### Claim theorems -/

/-- C2: every send or receive attempted while the transport's socket is
closed — `LocalLight._send`, `LocalLight._receive` and
`LocalLight._flush_receive_buffer` — fails with `DeviceDisconnected`
before any network I/O is performed: the call produces only the
exception, touching no socket operation. -/
theorem c2_closed_socket_fails_device_disconnected
    (data : List Nat) (n : Nat) (s : SockState) (h : s.closed = true) :
    LocalLight._send data s = .error .DeviceDisconnected ∧
    LocalLight._receive n s = .error .DeviceDisconnected ∧
    LocalLight.flush_receive_buffer s = .error .DeviceDisconnected := by
  unfold LocalLight._send LocalLight._receive LocalLight.flush_receive_buffer
  simp [h]

/-- Witness for C2 at a concrete closed socket. -/
theorem c2_witness :
    (⟨true, none, [], [], []⟩ : SockState).closed = true ∧
      LocalLight._send [0x71] ⟨true, none, [], [], []⟩ =
        .error .DeviceDisconnected ∧
      LocalLight._receive 12 ⟨true, none, [], [], []⟩ =
        .error .DeviceDisconnected ∧
      LocalLight.flush_receive_buffer ⟨true, none, [], [], []⟩ =
        .error .DeviceDisconnected :=
  ⟨rfl, c2_closed_socket_fails_device_disconnected [0x71] 12 _ rfl⟩

/-- C5: a command sent with `send_only=True` on the direct transport only
writes the encoded bytes: on success the socket log grows by exactly the
one write (so no poll and no read ever happens), the returned value is
Python's implicit `None`, and a failing write propagates its exception
with no flush or read either. -/
theorem c5_send_only_writes_only (cmd : Command) (s : SockState) :
    (∀ r s1, LocalLight._send_command cmd true s = .ok (r, s1) →
      r = none ∧ s1.log = s.log ++ [Op.sendOp cmd.byte_string]) ∧
    (∀ e, LocalLight._send cmd.byte_string s = .error e →
      LocalLight._send_command cmd true s = .error e) := by
  constructor
  · intro r s1 h
    unfold LocalLight._send_command at h
    rcases hs : LocalLight._send cmd.byte_string s with e | s' <;>
      rw [hs] at h <;> simp at h
    obtain ⟨rfl, rfl⟩ := h
    exact ⟨rfl, (LocalLight._send_eq_ok hs).2.2.2.2.2.2⟩
  · intro e he
    unfold LocalLight._send_command
    rw [he]
    simp

/-- Witness for C5 at a concrete open socket. -/
theorem c5_witness :
    LocalLight._send_command TurnON true ⟨false, none, [], [], []⟩ =
      .ok (none, ⟨false, none, [], [], [Op.sendOp TurnON.byte_string]⟩) ∧
      (none : Option (List Nat)) = none ∧
      [Op.sendOp TurnON.byte_string] =
        [] ++ [Op.sendOp TurnON.byte_string] := by
  refine ⟨rfl, ?_⟩
  exact (c5_send_only_writes_only TurnON ⟨false, none, [], [], []⟩).1
    none ⟨false, none, [], [], [Op.sendOp TurnON.byte_string]⟩ rfl

/-- C6 counterexample: with an established (open) connection and no data
arriving, a receive runs into the socket-level timeout and the direct
transport surfaces `socket.timeout` itself — not `DeviceOffline`.
`light.py` contains no handler converting socket errors, so a
mid-operation timeout or reset is never surfaced as `DeviceOffline`. -/
theorem c6_counterexample :
    LocalLight._receive 14 ⟨false, none, [], [], []⟩ =
      .error .SocketTimeout ∧
      Exc.SocketTimeout ≠ Exc.DeviceOffline := by
  exact ⟨rfl, by decide⟩

/-- C6 (amended): a socket-level timeout or connection reset during send
or receive propagates to the caller unchanged (as `socket.timeout` /
`ConnectionResetError`); the direct transport never converts it to
`DeviceOffline`, and `_receive` can never fail with `DeviceOffline` at
all. -/
theorem c6_mid_operation_errors_propagate_raw :
    (∀ (s : SockState) (dt : List Nat) (e : Exc), s.closed = false →
      s.sendFault = some e → LocalLight._send dt s = .error e) ∧
    (∀ (s : SockState) (n : Nat), s.closed = false → s.buffered = [] →
      LocalLight._receive n s = .error .SocketTimeout) ∧
    (∀ (s : SockState) (n : Nat) (rest : List RecvEvent), s.closed = false →
      s.buffered = RecvEvent.reset :: rest →
      LocalLight._receive n s = .error .ConnectionReset) ∧
    (∀ (s : SockState) (n : Nat),
      LocalLight._receive n s ≠ .error .DeviceOffline) := by
  refine ⟨?_, ?_, ?_, ?_⟩
  · intro s dt e hc hf
    unfold LocalLight._send sockSend
    simp [hc, hf]
  · intro s n hc hb
    unfold LocalLight._receive sockRecv
    simp [hc, hb]
  · intro s n rest hc hb
    unfold LocalLight._receive sockRecv
    simp [hc, hb]
  · intro s n h
    unfold LocalLight._receive sockRecv at h
    by_cases hc : s.closed
    · simp [hc] at h
    · rcases hb : s.buffered with _ | ⟨ev, rest⟩ <;> rw [hb] at h <;>
        simp [hc] at h
      rcases ev with bytes | _ <;> simp at h

/-- Witness for C6's amended theorem: the timeout and reset scenarios at
concrete states. -/
theorem c6_witness :
    LocalLight._receive 14 ⟨false, none, [], [], []⟩ =
      .error .SocketTimeout ∧
      LocalLight._receive 14 ⟨false, none, [RecvEvent.reset], [], []⟩ =
        .error .ConnectionReset ∧
      LocalLight._send [0x71] ⟨false, some .ConnectionReset, [], [], []⟩ =
        .error .ConnectionReset := by
  refine ⟨?_, ?_, ?_⟩
  · exact c6_mid_operation_errors_propagate_raw.2.1 _ 14 rfl rfl
  · exact c6_mid_operation_errors_propagate_raw.2.2.1 _ 14 [] rfl rfl
  · exact c6_mid_operation_errors_propagate_raw.1 _ [0x71] _ rfl rfl

/-- C7: a relayed query decodes the hex-encoded reply into the tuple of
raw bytes before any further use, and then applies exactly the direct
transport's length rule: `InvalidData` is raised iff the decoded tuple's
length differs from the command's declared `response_len`, otherwise the
decoded tuple is returned. -/
theorem c7_remote_query_length_rule (cmd : Command) (reply : List Char)
    (data : List Nat) (h : RemoteLight.str2hexarray reply = .ok data) :
    (RemoteLight._send_command_query cmd reply =
        .error (.InvalidData cmd.response_len data.length) ↔
      data.length ≠ cmd.response_len) ∧
    (data.length = cmd.response_len →
      RemoteLight._send_command_query cmd reply = .ok data) := by
  unfold RemoteLight._send_command_query
  rw [h]
  by_cases hl : data.length = cmd.response_len <;> simp [hl]

/-- Witness for C7: reply `"0a0b"` decodes to `(10, 11)` and passes a
declared length of 2. -/
theorem c7_witness :
    RemoteLight.str2hexarray ['0', 'a', '0', 'b'] = .ok [10, 11] ∧
      RemoteLight._send_command_query ⟨[0x81], 2⟩ ['0', 'a', '0', 'b'] =
        .ok [10, 11] := by
  refine ⟨rfl, ?_⟩
  exact (c7_remote_query_length_rule ⟨[0x81], 2⟩ ['0', 'a', '0', 'b']
    [10, 11] rfl).2 rfl

/-- C1: a direct-transport query (`LocalLight._send_command` with
`send_only=False`) flushes the receive buffer before the command bytes
are written and then expects exactly `cmd.response_len` bytes: on success
the returned decoded tuple has exactly the declared length and the socket
log shows the flush's polls and drains (no write among them), then the
single command write, then the reply read; when the received byte count
differs from the declared length the call fails with `InvalidData`
instead of returning a short or over-long buffer; when it matches, the
decoded byte tuple is returned. -/
theorem c1_local_query_flushes_then_reads_exact (cmd : Command) (s : SockState) :
    (∀ r s1, LocalLight._send_command cmd false s = .ok (r, s1) →
      ∃ d, r = some d ∧ d.length = cmd.response_len ∧
        ∃ fl, (∀ b, Op.sendOp b ∉ fl) ∧
          s1.log = s.log ++ fl ++
            [Op.sendOp cmd.byte_string, Op.recvOp cmd.response_len d]) ∧
    (∀ s1 s2 data s3, LocalLight.flush_receive_buffer s = .ok s1 →
      LocalLight._send cmd.byte_string s1 = .ok s2 →
      LocalLight._receive cmd.response_len s2 = .ok (data, s3) →
      data.length ≠ cmd.response_len →
      LocalLight._send_command cmd false s =
        .error (.InvalidData cmd.response_len data.length)) ∧
    (∀ s1 s2 data s3, LocalLight.flush_receive_buffer s = .ok s1 →
      LocalLight._send cmd.byte_string s1 = .ok s2 →
      LocalLight._receive cmd.response_len s2 = .ok (data, s3) →
      data.length = cmd.response_len →
      LocalLight._send_command cmd false s = .ok (some data, s3)) := by
  refine ⟨?_, ?_, ?_⟩
  · intro r s1 h
    unfold LocalLight._send_command at h
    rcases hq : LocalLight.send_command_query cmd s with e | ⟨d, s1'⟩ <;>
      rw [hq] at h <;> simp at h
    obtain ⟨rfl, rfl⟩ := h
    obtain ⟨hlen, fl, hfl, hlog⟩ := LocalLight.send_command_query_eq_ok hq
    exact ⟨d, rfl, hlen, fl, hfl, hlog⟩
  · intro s1 s2 data s3 h1 h2 h3 hne
    have hq : LocalLight.send_command_query cmd s =
        .error (.InvalidData cmd.response_len data.length) := by
      unfold LocalLight.send_command_query
      rw [h1]
      dsimp only
      rw [h2]
      dsimp only
      rw [h3]
      dsimp only
      simp [hne]
    unfold LocalLight._send_command
    simp [hq]
  · intro s1 s2 data s3 h1 h2 h3 hlen
    have hq : LocalLight.send_command_query cmd s = .ok (data, s3) := by
      unfold LocalLight.send_command_query
      rw [h1]
      dsimp only
      rw [h2]
      dsimp only
      rw [h3]
      dsimp only
      simp [hlen]
    unfold LocalLight._send_command
    simp [hq]

/-- Concrete pre-state for the C1 witness: open socket, one stale
buffered chunk, and a 12-byte reply that the device will deliver after
the next write. -/
def c1_state0 : SockState :=
  ⟨false, none, [RecvEvent.chunk [9, 9]],
   [RecvEvent.chunk [1, 2, 3, 4, 5, 6, 7, 8, 9, 10, 11, 12]], []⟩

/-- Socket state after the flush drains the stale chunk. -/
def c1_state1 : SockState :=
  ⟨false, none, [],
   [RecvEvent.chunk [1, 2, 3, 4, 5, 6, 7, 8, 9, 10, 11, 12]],
   [Op.pollOp true, Op.recvOp 255 [9, 9], Op.pollOp false]⟩

/-- Socket state after the command write. -/
def c1_state2 : SockState :=
  ⟨false, none, [RecvEvent.chunk [1, 2, 3, 4, 5, 6, 7, 8, 9, 10, 11, 12]],
   [],
   [Op.pollOp true, Op.recvOp 255 [9, 9], Op.pollOp false,
    Op.sendOp [0x11, 0x1a, 0x1b, 0x0f, 0x55]]⟩

/-- Socket state after the 12-byte reply read. -/
def c1_state3 : SockState :=
  ⟨false, none, [], [],
   [Op.pollOp true, Op.recvOp 255 [9, 9], Op.pollOp false,
    Op.sendOp [0x11, 0x1a, 0x1b, 0x0f, 0x55],
    Op.recvOp 12 [1, 2, 3, 4, 5, 6, 7, 8, 9, 10, 11, 12]]⟩

/-- Witness for C1: the clock query against `c1_state0` succeeds with the
full 12-byte reply. -/
theorem c1_witness :
    LocalLight._send_command QueryCurrentTime false c1_state0 =
      .ok (some [1, 2, 3, 4, 5, 6, 7, 8, 9, 10, 11, 12], c1_state3) ∧
      ([1, 2, 3, 4, 5, 6, 7, 8, 9, 10, 11, 12] : List Nat).length =
        QueryCurrentTime.response_len := by
  have h1 : LocalLight.flush_receive_buffer c1_state0 = .ok c1_state1 := by
    show LocalLight.flushGo none [RecvEvent.chunk [9, 9]]
      [RecvEvent.chunk [1, 2, 3, 4, 5, 6, 7, 8, 9, 10, 11, 12]] [] =
        .ok c1_state1
    rw [LocalLight.flushGo_chunk none [9, 9] [] _ [] (by decide)]
    show LocalLight.flushGo none []
      [RecvEvent.chunk [1, 2, 3, 4, 5, 6, 7, 8, 9, 10, 11, 12]]
      [Op.pollOp true, Op.recvOp 255 [9, 9]] = .ok c1_state1
    rw [LocalLight.flushGo_nil]
    rfl
  have h2 : LocalLight._send QueryCurrentTime.byte_string c1_state1 =
      .ok c1_state2 := by rfl
  have h3 : LocalLight._receive QueryCurrentTime.response_len c1_state2 =
      .ok ([1, 2, 3, 4, 5, 6, 7, 8, 9, 10, 11, 12], c1_state3) := by rfl
  refine ⟨?_, rfl⟩
  exact (c1_local_query_flushes_then_reads_exact QueryCurrentTime
    c1_state0).2.2 c1_state1 c1_state2 _ c1_state3 h1 h2 h3 rfl

/-- C4: `turn_on` sends the fire-and-forget `TurnON` command and then
sets the cached Status's `on` flag to `True`; when the send fails with
`DeviceDisconnected` (socket closed) the exception propagates and the
cached Status — its `on` flag included — is left unchanged, so no
optimistic update happens on a failed send.  Symmetrically for
`turn_off` and `False`. -/
theorem c4_turn_on_off_optimistic_update (st : LocalLightState) :
    (st.sock.closed = true →
      LocalLight.turn_on st = (.error .DeviceDisconnected, st) ∧
      LocalLight.turn_off st = (.error .DeviceDisconnected, st)) ∧
    (∀ r sock1, LocalLight._send_command TurnON true st.sock = .ok (r, sock1) →
      LocalLight.turn_on st =
        (.ok (), ⟨sock1, { st.status with is_on := true }⟩)) ∧
    (∀ r sock1, LocalLight._send_command TurnOFF true st.sock = .ok (r, sock1) →
      LocalLight.turn_off st =
        (.ok (), ⟨sock1, { st.status with is_on := false }⟩)) := by
  have hsend : st.sock.closed = true → ∀ cmd : Command,
      LocalLight._send_command cmd true st.sock = .error .DeviceDisconnected := by
    intro hc cmd
    unfold LocalLight._send_command LocalLight._send
    simp [hc]
  refine ⟨?_, ?_, ?_⟩
  · intro hc
    constructor
    · unfold LocalLight.turn_on
      rw [hsend hc TurnON]
    · unfold LocalLight.turn_off
      rw [hsend hc TurnOFF]
  · intro r sock1 h
    unfold LocalLight.turn_on
    rw [h]
  · intro r sock1 h
    unfold LocalLight.turn_off
    rw [h]

/-- A concrete cached Status used by witnesses. -/
def statusW : Status :=
  ⟨false, .normal, 0, 0, 0, some 0, none, .BULB_RGBWW⟩

/-- Witness for C4: against a closed socket both calls fail with
`DeviceDisconnected` and leave the cached Status untouched. -/
theorem c4_witness :
    (⟨⟨true, none, [], [], []⟩, statusW⟩ : LocalLightState).sock.closed = true ∧
      LocalLight.turn_on ⟨⟨true, none, [], [], []⟩, statusW⟩ =
        (.error .DeviceDisconnected, ⟨⟨true, none, [], [], []⟩, statusW⟩) ∧
      LocalLight.turn_off ⟨⟨true, none, [], [], []⟩, statusW⟩ =
        (.error .DeviceDisconnected, ⟨⟨true, none, [], [], []⟩, statusW⟩) :=
  ⟨rfl,
   (c4_turn_on_off_optimistic_update ⟨⟨true, none, [], [], []⟩, statusW⟩).1 rfl⟩

/-- C9: `get_current_time` never mutates the cached Status in any field —
whatever the outcome, the controller's status aggregate is exactly the
one from before the call — and on success it has sent the clock query
(the write is in the socket log) and returns the decoded timestamp
value. -/
theorem c9_get_current_time_preserves_status (st : LocalLightState) :
    ((LocalLight.get_current_time st).2).status = st.status ∧
    (∀ dt st1, LocalLight.get_current_time st = (.ok dt, st1) →
      Op.sendOp QueryCurrentTime.byte_string ∈ st1.sock.log) := by
  constructor
  · unfold LocalLight.get_current_time
    repeat' split
    all_goals rfl
  · intro dt st1 h
    unfold LocalLight.get_current_time at h
    rcases hq : LocalLight.send_command_query QueryCurrentTime st.sock with
      e | ⟨data, sock1⟩ <;> rw [hq] at h <;> dsimp only at h
    · simp at h
    rcases h3 : pyIndex data 3 with e | b3 <;> rw [h3] at h <;> dsimp only at h
    · simp at h
    rcases h4 : pyIndex data 4 with e | b4 <;> rw [h4] at h <;> dsimp only at h
    · simp at h
    rcases h5 : pyIndex data 5 with e | b5 <;> rw [h5] at h <;> dsimp only at h
    · simp at h
    rcases h6 : pyIndex data 6 with e | b6 <;> rw [h6] at h <;> dsimp only at h
    · simp at h
    rcases h7 : pyIndex data 7 with e | b7 <;> rw [h7] at h <;> dsimp only at h
    · simp at h
    rcases h8 : pyIndex data 8 with e | b8 <;> rw [h8] at h <;> dsimp only at h
    · simp at h
    rcases hm : mkDatetime (b3 + 2000) b4 b5 b6 b7 b8 with e | dtv <;>
      rw [hm] at h <;> dsimp only at h
    · simp at h
    simp only [Prod.mk.injEq, Except.ok.injEq] at h
    obtain ⟨-, rfl⟩ := h
    obtain ⟨-, fl, -, hlog⟩ := LocalLight.send_command_query_eq_ok hq
    simp [hlog, List.mem_append]

/-- Helper: a hex digit's value is below 16. -/
theorem hexDigitVal_lt {c : Char} {d : Nat} (h : hexDigitVal c = some d) :
    d < 16 := by
  unfold hexDigitVal at h
  dsimp only at h
  split_ifs at h with h1 h2 h3 <;> simp at h <;> omega

/-- Helper: Python's `int` on a two-hex-digit chunk. -/
theorem pyIntHex_pair {c0 c1 : Char} {d0 d1 : Nat}
    (h0 : hexDigitVal c0 = some d0) (h1 : hexDigitVal c1 = some d1) :
    pyIntHex [c0, c1] = .ok (16 * d0 + d1) := by
  simp [pyIntHex, hexVals, h0, h1]

/-- C10: on a hexadecimal string of even length `2 * n`, `str2hexarray`
returns a tuple of exactly `n` integers whose `i`-th element is the
base-16 value of the two characters at positions `2 * i` and `2 * i + 1`;
consequently every element is below 256. -/
theorem c10_str2hexarray_pairs :
    ∀ (s : List Char), s.length % 2 = 0 →
      (∀ c ∈ s, (hexDigitVal c).isSome) →
      ∃ l, RemoteLight.str2hexarray s = .ok l ∧
        l.length = s.length / 2 ∧
        (∀ i, i < l.length →
          ∃ c0 c1 d0 d1, s.get? (2 * i) = some c0 ∧
            s.get? (2 * i + 1) = some c1 ∧
            hexDigitVal c0 = some d0 ∧ hexDigitVal c1 = some d1 ∧
            l.get? i = some (16 * d0 + d1)) ∧
        (∀ v ∈ l, v < 256) := by
  have main : ∀ (n : Nat) (s : List Char), s.length ≤ n → s.length % 2 = 0 →
      (∀ c ∈ s, (hexDigitVal c).isSome) →
      ∃ l, RemoteLight.str2hexarray s = .ok l ∧
        l.length = s.length / 2 ∧
        (∀ i, i < l.length →
          ∃ c0 c1 d0 d1, s.get? (2 * i) = some c0 ∧
            s.get? (2 * i + 1) = some c1 ∧
            hexDigitVal c0 = some d0 ∧ hexDigitVal c1 = some d1 ∧
            l.get? i = some (16 * d0 + d1)) ∧
        (∀ v ∈ l, v < 256) := by
    intro n
    induction n with
    | zero =>
        intro s hn _ _
        have hs : s = [] := List.eq_nil_of_length_eq_zero (Nat.le_zero.mp hn)
        subst hs
        exact ⟨[], rfl, rfl, fun i hi => by simp at hi, fun v hv => by simp at hv⟩
    | succ n ih =>
        intro s hn heven hhex
        match s with
        | [] =>
            exact ⟨[], rfl, rfl, fun i hi => by simp at hi, fun v hv => by simp at hv⟩
        | [c] => simp at heven
        | c0 :: c1 :: rest =>
            have hrest_even : rest.length % 2 = 0 := by
              simp [List.length_cons] at heven
              omega
            have hrest_le : rest.length ≤ n := by
              simp [List.length_cons] at hn
              omega
            have hhex_rest : ∀ c ∈ rest, (hexDigitVal c).isSome :=
              fun c hc => hhex c (by simp [hc])
            obtain ⟨d0, hd0⟩ :=
              Option.isSome_iff_exists.mp (hhex c0 (by simp))
            obtain ⟨d1, hd1⟩ :=
              Option.isSome_iff_exists.mp (hhex c1 (by simp))
            obtain ⟨l, hl, hlen, hidx, hbound⟩ := ih rest hrest_le hrest_even hhex_rest
            refine ⟨(16 * d0 + d1) :: l, ?_, ?_, ?_, ?_⟩
            · unfold RemoteLight.str2hexarray
              rw [pyIntHex_pair hd0 hd1]
              dsimp only
              rw [hl]
            · simp only [List.length_cons, hlen]
              omega
            · intro i hi
              match i with
              | 0 =>
                  exact ⟨c0, c1, d0, d1, by simp, by simp, hd0, hd1, by simp⟩
              | Nat.succ j =>
                  have hj : j < l.length := by
                    simp only [List.length_cons] at hi
                    omega
                  obtain ⟨a0, a1, e0, e1, hg0, hg1, he0, he1, hgi⟩ := hidx j hj
                  refine ⟨a0, a1, e0, e1, ?_, ?_, he0, he1, ?_⟩
                  · have harith : 2 * (j + 1) = (2 * j + 1) + 1 := by ring
                    rw [harith]
                    simpa using hg0
                  · have harith : 2 * (j + 1) + 1 = ((2 * j + 1) + 1) + 1 := by ring
                    rw [harith]
                    simpa using hg1
                  · simpa using hgi
            · intro v hv
              rcases List.mem_cons.mp hv with h | h
              · have hb0 := hexDigitVal_lt hd0
                have hb1 := hexDigitVal_lt hd1
                omega
              · exact hbound v h
  intro s heven hhex
  exact main s.length s le_rfl heven hhex

/-- Witness for C10 on the concrete hex string `"0a0b"`. -/
theorem c10_witness :
    (['0', 'a', '0', 'b'] : List Char).length % 2 = 0 ∧
      ∃ l, RemoteLight.str2hexarray ['0', 'a', '0', 'b'] = .ok l ∧
        l.length = (['0', 'a', '0', 'b'] : List Char).length / 2 ∧
        (∀ i, i < l.length →
          ∃ c0 c1 d0 d1,
            (['0', 'a', '0', 'b'] : List Char).get? (2 * i) = some c0 ∧
            (['0', 'a', '0', 'b'] : List Char).get? (2 * i + 1) = some c1 ∧
            hexDigitVal c0 = some d0 ∧ hexDigitVal c1 = some d1 ∧
            l.get? i = some (16 * d0 + d1)) ∧
        (∀ v ∈ l, v < 256) :=
  ⟨by decide, c10_str2hexarray_pairs ['0', 'a', '0', 'b'] (by decide) (by decide)⟩

/-- The 12-byte clock reply used in concrete runs: offsets 3..8 hold
(25, 6, 15, 13, 30, 0). -/
def clockReply : List Nat := [15, 17, 20, 25, 6, 15, 13, 30, 0, 1, 2, 3]

/-- Open socket with the clock reply arriving after the next write. -/
def clockSock : SockState :=
  ⟨false, none, [], [RecvEvent.chunk clockReply], []⟩

/-- Socket state after the whole clock query. -/
def clockSockEnd : SockState :=
  ⟨false, none, [], [],
   [Op.pollOp false, Op.sendOp [0x11, 0x1a, 0x1b, 0x0f, 0x55],
    Op.recvOp 12 clockReply]⟩

/-- Evaluation of the clock query transaction on the concrete socket. -/
theorem clock_query_run :
    LocalLight.send_command_query QueryCurrentTime clockSock =
      .ok (clockReply, clockSockEnd) := by
  have hflush : LocalLight.flush_receive_buffer clockSock =
      .ok ⟨false, none, [], [RecvEvent.chunk clockReply], [Op.pollOp false]⟩ := by
    show LocalLight.flushGo none [] [RecvEvent.chunk clockReply] [] = _
    rw [LocalLight.flushGo_nil]
    rfl
  unfold LocalLight.send_command_query
  rw [hflush]
  rfl

/-- Evaluation of `get_current_time` on the concrete clock scenario. -/
theorem clock_run :
    LocalLight.get_current_time ⟨clockSock, statusW⟩ =
      (.ok ⟨2025, 6, 15, 13, 30, 0⟩, ⟨clockSockEnd, statusW⟩) := by
  unfold LocalLight.get_current_time
  rw [show (⟨clockSock, statusW⟩ : LocalLightState).sock = clockSock from rfl,
    clock_query_run]
  rfl

/-- C3: for a clock-query reply of the declared length,
`get_current_time` decodes offsets 3..8 of the decoded reply as
year-offset-from-2000, month, day, hour, minute, second; on the concrete
reply with (25, 6, 15, 13, 30, 0) at those offsets it returns
2025-06-15 13:30:00; and a reply shorter than the declared length is
rejected with `InvalidData` before any decoding happens. -/
theorem c3_clock_decode (st : LocalLightState) :
    (∀ data sock1,
      LocalLight.send_command_query QueryCurrentTime st.sock = .ok (data, sock1) →
      ∃ b3 b4 b5 b6 b7 b8,
        data.get? 3 = some b3 ∧ data.get? 4 = some b4 ∧
        data.get? 5 = some b5 ∧ data.get? 6 = some b6 ∧
        data.get? 7 = some b7 ∧ data.get? 8 = some b8 ∧
        (LocalLight.get_current_time st).1 =
          mkDatetime (b3 + 2000) b4 b5 b6 b7 b8) ∧
    (∀ s1 s2 data s3,
      LocalLight.flush_receive_buffer st.sock = .ok s1 →
      LocalLight._send QueryCurrentTime.byte_string s1 = .ok s2 →
      LocalLight._receive QueryCurrentTime.response_len s2 = .ok (data, s3) →
      data.length ≠ QueryCurrentTime.response_len →
      LocalLight.get_current_time st =
        (.error (.InvalidData QueryCurrentTime.response_len data.length), st)) ∧
    (LocalLight.get_current_time ⟨clockSock, statusW⟩).1 =
      .ok ⟨2025, 6, 15, 13, 30, 0⟩ := by
  refine ⟨?_, ?_, ?_⟩
  · intro data sock1 hq
    have hlen : data.length = 12 := (LocalLight.send_command_query_eq_ok hq).1
    have hg3 : data.get? 3 = some (data.get ⟨3, by omega⟩) := List.get?_eq_get _
    have hg4 : data.get? 4 = some (data.get ⟨4, by omega⟩) := List.get?_eq_get _
    have hg5 : data.get? 5 = some (data.get ⟨5, by omega⟩) := List.get?_eq_get _
    have hg6 : data.get? 6 = some (data.get ⟨6, by omega⟩) := List.get?_eq_get _
    have hg7 : data.get? 7 = some (data.get ⟨7, by omega⟩) := List.get?_eq_get _
    have hg8 : data.get? 8 = some (data.get ⟨8, by omega⟩) := List.get?_eq_get _
    refine ⟨_, _, _, _, _, _, hg3, hg4, hg5, hg6, hg7, hg8, ?_⟩
    have hp3 : pyIndex data 3 = .ok (data.get ⟨3, by omega⟩) := by
      unfold pyIndex
      rw [hg3]
    have hp4 : pyIndex data 4 = .ok (data.get ⟨4, by omega⟩) := by
      unfold pyIndex
      rw [hg4]
    have hp5 : pyIndex data 5 = .ok (data.get ⟨5, by omega⟩) := by
      unfold pyIndex
      rw [hg5]
    have hp6 : pyIndex data 6 = .ok (data.get ⟨6, by omega⟩) := by
      unfold pyIndex
      rw [hg6]
    have hp7 : pyIndex data 7 = .ok (data.get ⟨7, by omega⟩) := by
      unfold pyIndex
      rw [hg7]
    have hp8 : pyIndex data 8 = .ok (data.get ⟨8, by omega⟩) := by
      unfold pyIndex
      rw [hg8]
    unfold LocalLight.get_current_time
    rw [hq]
    dsimp only
    rw [hp3]
    dsimp only
    rw [hp4]
    dsimp only
    rw [hp5]
    dsimp only
    rw [hp6]
    dsimp only
    rw [hp7]
    dsimp only
    rw [hp8]
    dsimp only
    rcases hm : mkDatetime (data.get ⟨3, by omega⟩ + 2000) (data.get ⟨4, by omega⟩)
        (data.get ⟨5, by omega⟩) (data.get ⟨6, by omega⟩)
        (data.get ⟨7, by omega⟩) (data.get ⟨8, by omega⟩) with e | dtv <;> rfl
  · intro s1 s2 data s3 h1 h2 h3 hne
    have hq : LocalLight.send_command_query QueryCurrentTime st.sock =
        .error (.InvalidData QueryCurrentTime.response_len data.length) := by
      unfold LocalLight.send_command_query
      rw [h1]
      dsimp only
      rw [h2]
      dsimp only
      rw [h3]
      dsimp only
      simp [hne]
    unfold LocalLight.get_current_time
    rw [hq]
  · rw [clock_run]

/-- Witness for C3 on the concrete clock scenario: the query succeeds and
the decoded offsets drive the returned datetime. -/
theorem c3_witness :
    LocalLight.send_command_query QueryCurrentTime clockSock =
      .ok (clockReply, clockSockEnd) ∧
      ∃ b3 b4 b5 b6 b7 b8,
        clockReply.get? 3 = some b3 ∧ clockReply.get? 4 = some b4 ∧
        clockReply.get? 5 = some b5 ∧ clockReply.get? 6 = some b6 ∧
        clockReply.get? 7 = some b7 ∧ clockReply.get? 8 = some b8 ∧
        (LocalLight.get_current_time ⟨clockSock, statusW⟩).1 =
          mkDatetime (b3 + 2000) b4 b5 b6 b7 b8 :=
  ⟨clock_query_run,
   (c3_clock_decode ⟨clockSock, statusW⟩).1 clockReply clockSockEnd
     clock_query_run⟩

/-- Witness for C9 on the concrete clock scenario. -/
theorem c9_witness :
    ((LocalLight.get_current_time ⟨clockSock, statusW⟩).2).status = statusW ∧
      Op.sendOp QueryCurrentTime.byte_string ∈ clockSockEnd.log := by
  constructor
  · exact (c9_get_current_time_preserves_status ⟨clockSock, statusW⟩).1
  · exact (c9_get_current_time_preserves_status ⟨clockSock, statusW⟩).2
      ⟨2025, 6, 15, 13, 30, 0⟩ ⟨clockSockEnd, statusW⟩ clock_run

/-- Helper: reading back a serialized channel byte recovers the channel. -/
theorem toByte_val (x : Fin 256) : Status.toByte x.val = .ok x := by
  unfold Status.toByte
  rw [dif_pos x.isLt]

/-- Helper: the don't-care byte 0 of an absent channel reads back as 0. -/
theorem toByte_zero : Status.toByte 0 = .ok 0 := rfl

/-- C8: semantic round-trip idempotence of the Status codec: for every
bulb variant and every well-formed Status (white channels present exactly
as the variant allows), parsing the serialized frame returns a Status
equal to the original in every meaningful field — absent channels stay
absent, so the aggregates are equal outright, even though the serialized
bytes of a re-serialization need not be byte-identical. -/
theorem c8_status_roundtrip (s : Status) (h : s.wf) :
    Status.parse (Status.make_data s) = .ok s := by
  obtain ⟨pw, mode, red, green, blue, w, cw, bt⟩ := s
  cases bt
  · obtain ⟨hw, hcw⟩ := h
    obtain ⟨wv, hwv⟩ := Option.isSome_iff_exists.mp hw
    subst hwv
    subst hcw
    cases pw <;> cases mode <;>
      simp [Status.make_data, Status.parse, Status.onByte, Status.modeByte,
        Status.typeByte, toByte_val, toByte_zero] <;> rfl
  · obtain ⟨hw, hcw⟩ := h
    obtain ⟨wv, hwv⟩ := Option.isSome_iff_exists.mp hw
    obtain ⟨cwv, hcwv⟩ := Option.isSome_iff_exists.mp hcw
    subst hwv
    subst hcwv
    cases pw <;> cases mode <;>
      simp [Status.make_data, Status.parse, Status.onByte, Status.modeByte,
        Status.typeByte, toByte_val, toByte_zero] <;> rfl
  · obtain ⟨hw, hcw⟩ := h
    subst hw
    subst hcw
    cases pw <;> cases mode <;>
      simp [Status.make_data, Status.parse, Status.onByte, Status.modeByte,
        Status.typeByte, toByte_val, toByte_zero] <;> rfl

/-- Witness for C8 at a concrete RGB+warm-white Status with
`(r, g, b) = (255, 0, 128)` and warm white 64. -/
theorem c8_witness :
    (⟨true, .normal, 255, 0, 128, some 64, none, .BULB_RGBWW⟩ : Status).wf ∧
      Status.parse
        (Status.make_data
          ⟨true, .normal, 255, 0, 128, some 64, none, .BULB_RGBWW⟩) =
        .ok ⟨true, .normal, 255, 0, 128, some 64, none, .BULB_RGBWW⟩ :=
  ⟨⟨rfl, rfl⟩, c8_status_roundtrip _ ⟨rfl, rfl⟩⟩
